import Mathlib

/-!
Verification development for `sortphotos.py`: a shallow embedding of the
timestamp parser (`parse_date_exif`), the oldest-timestamp selector
(`get_oldest_timestamp`), the day-boundary adjuster
(`check_for_early_morning_photos`), and the per-record placement /
move-copy logic of `sortPhotos`, together with theorems that settle the
specification's claims about them.

Python values are modelled as follows: strings are `List Char` (built from
`String.data`), Python `int` values are `Int`, `datetime.datetime` is the
`DateTime` structure below with proleptic-Gregorian arithmetic, fallible
operations return `Except PyExn`, and dictionaries (whose Python-3.7+
iteration order is insertion order) are association lists.
-/

set_option linter.unusedVariables false

/-- Python exception kinds that can escape the modelled code paths. -/
inductive PyExn where
  | valueError
  | keyError
  | overflowError
  | osError
  | attributeError
  | fuelExhausted
deriving DecidableEq, Repr

/-- Whitespace test matching the characters Python's `str.split()` and
`str.strip()` treat as separators on the inputs modelled here (space, tab,
newline, carriage return; Python additionally handles `\x0b`/`\x0c`). -/
def pyIsWs (c : Char) : Bool :=
  c = ' ' ∨ c = '\t' ∨ c = '\n' ∨ c = '\r'

/-- Leading-whitespace trim on a character list. -/
def trimLead : List Char → List Char
  | [] => []
  | c :: cs => if pyIsWs c then trimLead cs else c :: cs

/-- Python `str.strip()`: trim whitespace from both ends. -/
def trimWs (l : List Char) : List Char :=
  (trimLead (trimLead l.reverse)).reverse

/-- Split a character list at every character satisfying `p`, keeping
empty chunks between adjacent separators. -/
def splitChunks (p : Char → Bool) : List Char → List (List Char)
  | [] => [[]]
  | x :: xs =>
    let r := splitChunks p xs
    if p x then [] :: r
    else
      match r with
      | h :: t => (x :: h) :: t
      | [] => [[x]]

/-- Python `str.split()` with no argument: split on whitespace runs,
discarding empty pieces. -/
def splitWs (l : List Char) : List (List Char) :=
  (splitChunks pyIsWs l).filter (fun p => ¬ p.isEmpty)

/-- Python `str.split(sep)` for a one-character separator: split at every
occurrence, keeping empty pieces (so `"".split(c) = [""]`). -/
def splitOnChar (c : Char) : List Char → List (List Char)
  | [] => [[]]
  | x :: xs =>
    let r := splitOnChar c xs
    if x = c then [] :: r
    else
      match r with
      | h :: t => (x :: h) :: t
      | [] => [[x]]

/-- Python string `<` comparison: lexicographic by character code point. -/
def pyStrLt : List Char → List Char → Bool
  | [], [] => false
  | [], _ :: _ => true
  | _ :: _, [] => false
  | a :: as, b :: bs => if a = b then pyStrLt as bs else decide (a < b)

/-- Python string `>` comparison. -/
def pyStrGt (a b : List Char) : Bool := pyStrLt b a

/-- Digit run to a natural number (base 10). -/
def digitsToNat : List Char → Nat
  | [] => 0
  | c :: cs => (c.toNat - '0'.toNat) * 10 ^ cs.length + digitsToNat cs

/-- Python `int(s)` on a string: optional surrounding whitespace, optional
sign, then a nonempty digit run; anything else raises `ValueError`.
(Python's underscore digit grouping and non-ASCII digits are not modelled;
no input considered in this development contains them.) -/
def pyInt (l : List Char) : Except PyExn Int :=
  let t := trimWs l
  let core : List Char → Except PyExn Int := fun ds =>
    if ds.isEmpty ∨ ¬ (ds.all Char.isDigit) then .error .valueError
    else .ok (Int.ofNat (digitsToNat ds))
  match t with
  | '+' :: rest => core rest
  | '-' :: rest => (core rest).map Int.neg
  | rest => core rest

/-- Substring containment, as in Python's `needle in haystack`. -/
def containsSub (needle haystack : List Char) : Bool :=
  decide (List.IsInfix needle haystack)

deriving instance DecidableEq for Except

theorem pyInt_ok_2020 : pyInt ("2020".data) = .ok 2020 := by decide

theorem splitOnChar_date : splitOnChar ':' ("2020:01:15".data) =
    ["2020".data, "01".data, "15".data] := by decide

/-- Model of Python `datetime.datetime`: a proleptic-Gregorian calendar
date-time. The constructor's validity condition (`dateCtorOk`) matches
Python's (`MINYEAR = 1`, `MAXYEAR = 9999`). -/
structure DateTime where
  year : Int
  month : Int
  day : Int
  hour : Int
  minute : Int
  second : Int
deriving DecidableEq, Repr

/-- Gregorian leap-year test. -/
def isLeap (y : Int) : Bool :=
  (Int.emod y 4 = 0 ∧ Int.emod y 100 ≠ 0) ∨ Int.emod y 400 = 0

/-- Number of days in a month of the proleptic Gregorian calendar. -/
def daysInMonth (y m : Int) : Int :=
  if m = 2 then (if isLeap y then 29 else 28)
  else if m = 4 ∨ m = 6 ∨ m = 9 ∨ m = 11 then 30
  else 31

/-- Validity condition of the Python `datetime` constructor: this is the
check whose failure the source catches as `ValueError` (line 94-97). -/
def dateCtorOk (y m d h mi s : Int) : Bool :=
  1 ≤ y ∧ y ≤ 9999 ∧ 1 ≤ m ∧ m ≤ 12 ∧ 1 ≤ d ∧ d ≤ daysInMonth y m ∧
  0 ≤ h ∧ h ≤ 23 ∧ 0 ≤ mi ∧ mi ≤ 59 ∧ 0 ≤ s ∧ s ≤ 59

/-- A fully valid `DateTime` value (what the Python constructor yields). -/
def dtValid (dt : DateTime) : Bool :=
  dateCtorOk dt.year dt.month dt.day dt.hour dt.minute dt.second

/-- Calendar successor of a (year, month, day) triple. -/
def nextDay (p : Int × Int × Int) : Int × Int × Int :=
  if p.2.2 < daysInMonth p.1 p.2.1 then (p.1, p.2.1, p.2.2 + 1)
  else if p.2.1 < 12 then (p.1, p.2.1 + 1, 1)
  else (p.1 + 1, 1, 1)

/-- Calendar predecessor of a (year, month, day) triple. -/
def prevDay (p : Int × Int × Int) : Int × Int × Int :=
  if 1 < p.2.2 then (p.1, p.2.1, p.2.2 - 1)
  else if 1 < p.2.1 then (p.1, p.2.1 - 1, daysInMonth p.1 (p.2.1 - 1))
  else (p.1 - 1, 12, 31)

/-- Iterated calendar successor. -/
def nextDayN (p : Int × Int × Int) : Nat → Int × Int × Int
  | 0 => p
  | n + 1 => nextDayN (nextDay p) n

/-- Iterated calendar predecessor. -/
def prevDayN (p : Int × Int × Int) : Nat → Int × Int × Int
  | 0 => p
  | n + 1 => prevDayN (prevDay p) n

/-- Python `datetime + timedelta` arithmetic, with the delta expressed in
seconds: shift the time-of-day, carry whole days into the calendar
component. (Range checking of the result is done by the callers, matching
where Python raises `OverflowError`.) -/
def addSeconds (dt : DateTime) (delta : Int) : DateTime :=
  let t := 3600 * dt.hour + 60 * dt.minute + dt.second + delta
  let q := t / 86400
  let r := t % 86400
  let ymd :=
    if 0 ≤ q then nextDayN (dt.year, dt.month, dt.day) q.toNat
    else prevDayN (dt.year, dt.month, dt.day) (-q).toNat
  ⟨ymd.1, ymd.2.1, ymd.2.2, r / 3600, r % 3600 / 60, r % 60⟩

/-- Python `datetime` comparison `<`: for valid date-times this is
chronological order, computed lexicographically on the components. -/
def dtLt (a b : DateTime) : Bool :=
  if a.year ≠ b.year then decide (a.year < b.year)
  else if a.month ≠ b.month then decide (a.month < b.month)
  else if a.day ≠ b.day then decide (a.day < b.day)
  else if a.hour ≠ b.hour then decide (a.hour < b.hour)
  else if a.minute ≠ b.minute then decide (a.minute < b.minute)
  else decide (a.second < b.second)

theorem dtLt_irrefl (a : DateTime) : dtLt a a = false := by
  simp [dtLt]

set_option maxHeartbeats 1000000 in
theorem dtLt_asymm {a b : DateTime} (h : dtLt a b = true) :
    dtLt b a = false := by
  cases a; cases b
  simp only [dtLt] at h ⊢
  split_ifs at h ⊢ <;> simp_all <;> omega

set_option maxHeartbeats 4000000 in
theorem dtLt_trans {a b c : DateTime} (h1 : dtLt a b = true)
    (h2 : dtLt b c = true) : dtLt a c = true := by
  cases a; cases b; cases c
  simp only [dtLt] at h1 h2 ⊢
  split_ifs at h1 h2 ⊢ <;> simp_all <;> omega

set_option maxHeartbeats 1000000 in
theorem dtLt_connex {a b : DateTime} (h1 : dtLt a b = false)
    (h2 : dtLt b a = false) : a = b := by
  cases a; cases b
  simp only [dtLt] at h1 h2
  split_ifs at h1 h2 <;> simp_all <;> omega

/-- Model of `re.split` with the pattern used at line 66 of the source
(a captured alternation of the characters `+`, `-`, `Z`): split at every
occurrence, keeping the separator characters as their own list entries. -/
def reSplitTZ : List Char → List (List Char)
  | [] => [[]]
  | c :: cs =>
    if c = '+' ∨ c = '-' ∨ c = 'Z' then [] :: [c] :: reSplitTZ cs
    else
      match reSplitTZ cs with
      | h :: t => (c :: h) :: t
      | [] => [[c]]

/-- The date-token shape test of `parse_date_exif` (source line 52): three
colon-separated entries, first entry lexicographically above `"0000"`, no
decimal point anywhere in the joined entries, and first entry of length 4. -/
def dateShapeOk (de : List (List Char)) : Bool :=
  de.length = 3 ∧ pyStrGt (de.headD []) ("0000".data) ∧
  ¬ (de.flatten.contains '.') ∧ (de.headD []).length = 4

/-- Embedding of `parse_date_exif` (source lines 33-109). Returns
`.ok none` where the Python function returns `None`, `.ok (some dt)` for a
parsed timestamp, and `.error _` where the Python function raises an
uncaught exception (`ValueError` from `int()` on a non-numeric component,
`OverflowError` from the time-zone adjustment leaving the representable
year range). The `strftime` representability probe of lines 100-103 is
modelled as always succeeding, which is its behavior on the reference
platform for every constructible datetime. -/
def parse_date_exif (date_string : String) : Except PyExn (Option DateTime) :=
  let elements := splitWs (trimWs date_string.data)
  match elements with
  | [] => .ok none
  | e0 :: restEls =>
    let de := splitOnChar ':' e0
    if dateShapeOk de then
      match de with
      | [ys, ms, ds] =>
        match pyInt ys with
        | .error e => .error e
        | .ok year =>
        match pyInt ms with
        | .error e => .error e
        | .ok month =>
        match pyInt ds with
        | .error e => .error e
        | .ok day =>
        let timeStep : Except PyExn (Int × Int × Int × Bool × Int) :=
          match restEls with
          | [] => .ok (12, 0, 0, false, 0)
          | t1 :: _ =>
            let tes := reSplitTZ t1
            let tparts := splitOnChar ':' (tes.headD [])
            let hms : Except PyExn (Int × Int × Int) :=
              match tparts with
              | [a, b, c] =>
                match pyInt a with
                | .error e => .error e
                | .ok hh =>
                match pyInt b with
                | .error e => .error e
                | .ok mm =>
                match pyInt ((splitOnChar '.' c).headD []) with
                | .error e => .error e
                | .ok ss => .ok (hh, mm, ss)
              | [a, b] =>
                match pyInt a with
                | .error e => .error e
                | .ok hh =>
                match pyInt b with
                | .error e => .error e
                | .ok mm => .ok (hh, mm, 0)
              | _ => .ok (12, 0, 0)
            match hms with
            | .error e => .error e
            | .ok (hh, mm, ss) =>
              match tes with
              | _ :: sep :: third :: _ =>
                match splitOnChar ':' third with
                | [tzh0, tzm0] =>
                  match pyInt tzh0 with
                  | .error e => .error e
                  | .ok tzh1 =>
                  match pyInt tzm0 with
                  | .error e => .error e
                  | .ok tzm =>
                    let tzh := if sep = ['-'] then -tzh1 else tzh1
                    .ok (hh, mm, ss, true, tzh * 3600 + tzm * 60)
                | _ => .ok (hh, mm, ss, false, 0)
              | _ => .ok (hh, mm, ss, false, 0)
        match timeStep with
        | .error e => .error e
        | .ok (hour, minute, second, tzAdjust, dateadd) =>
          if dateCtorOk year month day hour minute second then
            let date : DateTime := ⟨year, month, day, hour, minute, second⟩
            if tzAdjust then
              let d2 := addSeconds date dateadd
              if 1 ≤ d2.year ∧ d2.year ≤ 9999 then .ok (some d2)
              else .error .overflowError
            else .ok (some date)
          else .ok none
      | _ => .ok none
    else .ok none

theorem parse_plus_example : parse_date_exif "2020:01:15 10:30:00+02:00" =
    .ok (some ⟨2020, 1, 15, 12, 30, 0⟩) := by decide

theorem parse_z_example : parse_date_exif "2020:01:15 08:30:00Z" =
    .ok (some ⟨2020, 1, 15, 8, 30, 0⟩) := by decide

theorem parse_noon_example : parse_date_exif "2020:01:15" =
    .ok (some ⟨2020, 1, 15, 12, 0, 0⟩) := by decide

theorem parse_empty_component : parse_date_exif "2020::01" =
    .error .valueError := by decide

theorem parse_zero_year : parse_date_exif "0000:01:01" = .ok none := by decide

/-- A metadata tag value as handed to `get_oldest_timestamp`: either a
scalar (already a string after Python's `str()`), or a list of values, in
which case the source takes the first element (line 144-145). List values
are modelled as nonempty; an empty list would raise `IndexError` in the
source and never occurs in extraction output. -/
inductive TagVal where
  | scalar (s : String)
  | multi (head : String) (tail : List String)
deriving DecidableEq, Repr

/-- The string `parse_date_exif` receives for a tag value. -/
def tagValStr : TagVal → String
  | .scalar s => s
  | .multi h _ => h

/-- A metadata record: the JSON object for one file, as an insertion-ordered
association list from tag identifier to value. -/
abbrev MetaRecord := List (String × TagVal)

/-- First binding of a key in an association list (Python dict access). -/
def lookupTag (data : MetaRecord) (k : String) : Option TagVal :=
  match data.find? (fun kv => kv.1 = k) with
  | some kv => some kv.2
  | none => none

/-- Group prefix of a qualified tag identifier: `key.split(':')[0]`. -/
def keyGroup (k : String) : List Char :=
  (splitOnChar ':' k.data).headD []

/-- The tag filter of `get_oldest_timestamp` (source line 136): the key is
not in the ignored-tag list, its group is not in the ignored-group list,
and it does not contain the substring `GPS`. -/
def shouldConsider (igroups itags : List String) (k : String) : Bool :=
  ¬ (itags.contains k) ∧ ¬ (igroups.any (fun g => g.data = keyGroup k)) ∧
  ¬ containsSub ("GPS".data) k.data

/-- The loop of `get_oldest_timestamp` over the record's keys (source lines
133-154), with the running state `(date_available, oldest_date,
oldest_keys)` made explicit. A parse exception propagates out, as in the
source. -/
def get_oldest_loop (igroups itags : List String) :
    MetaRecord → Bool × DateTime × List String →
    Except PyExn (Bool × DateTime × List String)
  | [], st => .ok st
  | (k, v) :: rest, (avail, od, keys) =>
    if shouldConsider igroups itags k then
      match parse_date_exif (tagValStr v) with
      | .error e => .error e
      | .ok none => get_oldest_loop igroups itags rest (avail, od, keys)
      | .ok (some d) =>
        if dtLt d od then get_oldest_loop igroups itags rest (true, d, [k])
        else if d = od then
          get_oldest_loop igroups itags rest (avail, od, keys ++ [k])
        else get_oldest_loop igroups itags rest (avail, od, keys)
    else get_oldest_loop igroups itags rest (avail, od, keys)

/-- Embedding of `get_oldest_timestamp` (source lines 113-162). `now` is
the value of `datetime.now()` at line 118, made an explicit parameter.
Returns the source file value, the oldest date found (or `none`), and the
list of keys that produced it. -/
def get_oldest_timestamp (now : DateTime) (data : MetaRecord)
    (additional_groups_to_ignore additional_tags_to_ignore : List String) :
    Except PyExn (TagVal × Option DateTime × List String) :=
  match lookupTag data "SourceFile" with
  | none => .error .keyError
  | some src_file =>
    let ignore_groups := "ICC_Profile" :: additional_groups_to_ignore
    let ignore_tags :=
      "SourceFile" :: "XMP:HistoryWhen" :: additional_tags_to_ignore
    match get_oldest_loop ignore_groups ignore_tags data (false, now, []) with
    | .error e => .error e
    | .ok (avail, od, keys) =>
      .ok (src_file, (if avail then some od else none), keys)

/-- The per-tag state update of the selector loop, as a pure function on
the `(date_available, oldest_date, oldest_keys)` state. -/
def selStep (st : Bool × DateTime × List String) (kd : String × DateTime) :
    Bool × DateTime × List String :=
  if dtLt kd.2 st.2.1 then (true, kd.2, [kd.1])
  else if kd.2 = st.2.1 then (st.1, st.2.1, st.2.2 ++ [kd.1])
  else st

/-- The (key, parsed date) pairs the selector loop actually processes:
considered keys whose value parses to a valid timestamp. -/
def parsedDates (igroups itags : List String) (data : MetaRecord) :
    List (String × DateTime) :=
  data.filterMap (fun kv =>
    if shouldConsider igroups itags kv.1 then
      match parse_date_exif (tagValStr kv.2) with
      | .ok (some d) => some (kv.1, d)
      | _ => none
    else none)

/-- No considered tag value makes `parse_date_exif` raise. -/
def noParseErr (igroups itags : List String) (data : MetaRecord) : Bool :=
  data.all (fun kv =>
    if shouldConsider igroups itags kv.1 then
      match parse_date_exif (tagValStr kv.2) with
      | .error _ => false
      | .ok _ => true
    else true)

theorem get_oldest_loop_eq_fold (igroups itags : List String) :
    ∀ (l : MetaRecord) (st : Bool × DateTime × List String),
    noParseErr igroups itags l = true →
    get_oldest_loop igroups itags l st =
      .ok (List.foldl selStep st (parsedDates igroups itags l)) := by
  intro l
  induction l with
  | nil => intro st h; rfl
  | cons kv rest ih =>
    intro st h
    obtain ⟨k, v⟩ := kv
    obtain ⟨avail, od, keys⟩ := st
    simp only [noParseErr, List.all_cons, Bool.and_eq_true] at h
    have hrest : noParseErr igroups itags rest = true := h.2
    by_cases hc : shouldConsider igroups itags k = true
    · cases hp : parse_date_exif (tagValStr v) with
      | error e => simp [hc, hp] at h
      | ok o =>
        cases o with
        | none =>
          simp [get_oldest_loop, hc, hp, parsedDates, ih _ hrest]
        | some d =>
          simp only [get_oldest_loop, hc, if_true, hp]
          by_cases hlt : dtLt d od = true
          · rw [if_pos hlt, ih _ hrest]
            simp [parsedDates, hc, hp, selStep, hlt]
          · by_cases heq : d = od
            · rw [if_neg hlt, if_pos heq, ih _ hrest]
              subst heq
              simp [parsedDates, hc, hp, selStep, dtLt_irrefl]
            · rw [if_neg hlt, if_neg heq, ih _ hrest]
              simp [parsedDates, hc, hp, selStep, hlt, heq]
    · simp only [Bool.not_eq_true] at hc
      simp only [get_oldest_loop, hc, Bool.false_eq_true, if_false,
        ih _ hrest]
      simp [parsedDates, hc]

/-- Invariant of the selector loop state after processing the (key, parsed
date) pairs `P`, with initialization value `now`: if no date has been
accepted, the running date is still `now`, nothing processed was earlier
than `now`, and the key list holds exactly the keys that parsed to `now`;
if a date has been accepted, it is strictly earlier than `now`, it is the
minimum of the processed dates, and the key list holds exactly the keys
that parsed to it. -/
def SelInv (now : DateTime) (P : List (String × DateTime))
    (st : Bool × DateTime × List String) : Prop :=
  (st.1 = false → st.2.1 = now ∧ (∀ kd ∈ P, dtLt kd.2 now = false) ∧
    st.2.2 = (P.filter (fun kd => kd.2 = now)).map Prod.fst) ∧
  (st.1 = true → dtLt st.2.1 now = true ∧ (∃ kd ∈ P, kd.2 = st.2.1) ∧
    (∀ kd ∈ P, dtLt kd.2 st.2.1 = false) ∧
    st.2.2 = (P.filter (fun kd => kd.2 = st.2.1)).map Prod.fst)

theorem selInv_init (now : DateTime) : SelInv now [] (false, now, []) := by
  refine ⟨fun _ => ⟨rfl, by simp, by simp⟩, fun h => by simp at h⟩

theorem selStep_inv {now : DateTime} {P : List (String × DateTime)}
    {st : Bool × DateTime × List String} (h : SelInv now P st)
    (kd : String × DateTime) : SelInv now (P ++ [kd]) (selStep st kd) := by
  obtain ⟨avail, od, keys⟩ := st
  obtain ⟨k, d⟩ := kd
  obtain ⟨h0, h1⟩ := h
  simp only at h0 h1
  simp only [selStep]
  by_cases hlt : dtLt d od = true
  · rw [if_pos hlt]
    have hdnow : dtLt d now = true := by
      cases avail with
      | false =>
        obtain ⟨he, _, _⟩ := h0 rfl
        rw [he] at hlt; exact hlt
      | true => exact dtLt_trans hlt (h1 rfl).1
    have hnone : ∀ x ∈ P, dtLt x.2 d = false := by
      intro x hx
      by_contra hxl
      rw [Bool.not_eq_false] at hxl
      cases avail with
      | false =>
        obtain ⟨he, hall, _⟩ := h0 rfl
        exact absurd (dtLt_trans hxl hdnow) (by simp [hall x hx])
      | true =>
        obtain ⟨_, _, hall, _⟩ := h1 rfl
        exact absurd (dtLt_trans hxl hlt) (by simp [hall x hx])
    have hfilterP : P.filter (fun x => x.2 = d) = [] := by
      rw [List.filter_eq_nil_iff]
      intro x hx hxe
      simp only [decide_eq_true_eq] at hxe
      cases avail with
      | false =>
        obtain ⟨he, hall, _⟩ := h0 rfl
        have hx2 := hall x hx
        rw [hxe] at hx2
        simp [hx2] at hdnow
      | true =>
        obtain ⟨_, _, hall, _⟩ := h1 rfl
        have hx2 := hall x hx
        rw [hxe] at hx2
        simp [hx2] at hlt
    refine ⟨fun hfa => by simp at hfa, fun _ => ⟨hdnow, ?_, ?_, ?_⟩⟩
    · exact ⟨(k, d), by simp⟩
    · intro x hx
      rcases List.mem_append.mp hx with hxP | hxk
      · exact hnone x hxP
      · simp only [List.mem_singleton] at hxk
        rw [hxk]; exact dtLt_irrefl d
    · simp [List.filter_append, hfilterP]
  · rw [if_neg hlt]
    by_cases heq : d = od
    · rw [if_pos heq]
      subst heq
      refine ⟨fun hfa => ?_, fun hta => ?_⟩
      · obtain ⟨he, hall, hkeys⟩ := h0 hfa
        subst he
        refine ⟨rfl, ?_, ?_⟩
        · intro x hx
          rcases List.mem_append.mp hx with hxP | hxk
          · exact hall x hxP
          · simp only [List.mem_singleton] at hxk
            rw [hxk]; exact dtLt_irrefl d
        · simp [List.filter_append, hkeys]
      · obtain ⟨hnow, hmem, hall, hkeys⟩ := h1 hta
        refine ⟨hnow, ?_, ?_, ?_⟩
        · obtain ⟨x, hx, hxe⟩ := hmem
          exact ⟨x, List.mem_append_left _ hx, hxe⟩
        · intro x hx
          rcases List.mem_append.mp hx with hxP | hxk
          · exact hall x hxP
          · simp only [List.mem_singleton] at hxk
            rw [hxk]; exact dtLt_irrefl d
        · simp [List.filter_append, hkeys]
    · rw [if_neg heq]
      refine ⟨fun hfa => ?_, fun hta => ?_⟩
      · obtain ⟨he, hall, hkeys⟩ := h0 hfa
        subst he
        refine ⟨rfl, ?_, ?_⟩
        · intro x hx
          rcases List.mem_append.mp hx with hxP | hxk
          · exact hall x hxP
          · simp only [List.mem_singleton] at hxk
            rw [hxk]
            exact Bool.not_eq_true _ ▸ hlt
        · simp [List.filter_append, hkeys, heq]
      · obtain ⟨hnow, hmem, hall, hkeys⟩ := h1 hta
        refine ⟨hnow, ?_, ?_, ?_⟩
        · obtain ⟨x, hx, hxe⟩ := hmem
          exact ⟨x, List.mem_append_left _ hx, hxe⟩
        · intro x hx
          rcases List.mem_append.mp hx with hxP | hxk
          · exact hall x hxP
          · simp only [List.mem_singleton] at hxk
            rw [hxk]
            exact Bool.not_eq_true _ ▸ hlt
        · simp [List.filter_append, hkeys, heq]

theorem foldl_selStep_inv (now : DateTime) :
    ∀ (P Q : List (String × DateTime)) (st : Bool × DateTime × List String),
    SelInv now Q st → SelInv now (Q ++ P) (List.foldl selStep st P) := by
  intro P
  induction P with
  | nil => intro Q st h; simpa using h
  | cons x xs ih =>
    intro Q st h
    have h3 := ih (Q ++ [x]) (selStep st x) (selStep_inv h x)
    simpa [List.append_assoc] using h3

/-- Record whose only date tag parses to a timestamp in the future of the
initialization instant used below. -/
def dataFuture : MetaRecord :=
  [("SourceFile", .scalar "f.jpg"),
   ("EXIF:CreateDate", .scalar "2999:01:01 00:00:00")]

/-- A concrete value for `datetime.now()` (any present-day instant). -/
def nowRef : DateTime := ⟨2026, 1, 1, 0, 0, 0⟩

/-- Claim C1 is refuted as stated: the selector initializes its search
from `datetime.now()` (line 118) rather than from a sentinel greater than
every real parsed timestamp, so in a record whose one non-excluded tag
parses to the valid (future) timestamp 2999-01-01 00:00:00, the returned
value is `none` and the tag list is empty instead of that tag's parsed
minimum. -/
theorem claim_C1_counterexample :
    parsedDates ["ICC_Profile"] ["SourceFile", "XMP:HistoryWhen"] dataFuture
      = [("EXIF:CreateDate", ⟨2999, 1, 1, 0, 0, 0⟩)] ∧
    get_oldest_timestamp nowRef dataFuture [] [] =
      .ok (.scalar "f.jpg", none, []) := by decide

/-- Claim C1 (amended): for every record, filter lists and initialization
instant `now` (the wall-clock value the source reads at line 118), when no
considered tag raises and the record has a `SourceFile` key, the selector
returns: the minimum `m` of all parsed timestamps of non-excluded tags
together with exactly the tags achieving it, provided at least one parsed
timestamp is strictly earlier than `now`; and no date at all when no
parsed timestamp is strictly earlier than `now`. -/
theorem claim_C1 (now : DateTime) (data : MetaRecord)
    (gi ti : List String) (src : TagVal) (P : List (String × DateTime))
    (hsrc : lookupTag data "SourceFile" = some src)
    (hne : noParseErr ("ICC_Profile" :: gi)
      ("SourceFile" :: "XMP:HistoryWhen" :: ti) data = true)
    (hP : P = parsedDates ("ICC_Profile" :: gi)
      ("SourceFile" :: "XMP:HistoryWhen" :: ti) data) :
    ∃ od keys,
      get_oldest_timestamp now data gi ti = .ok (src, od, keys) ∧
      ((∃ kd ∈ P, dtLt kd.2 now = true) →
        ∃ m, od = some m ∧ dtLt m now = true ∧ (∃ kd ∈ P, kd.2 = m) ∧
          (∀ kd ∈ P, dtLt kd.2 m = false) ∧
          keys = (P.filter (fun kd => kd.2 = m)).map Prod.fst) ∧
      ((∀ kd ∈ P, dtLt kd.2 now = false) → od = none) := by
  have hinv := foldl_selStep_inv now P [] (false, now, []) (selInv_init now)
  simp only [List.nil_append] at hinv
  have hloop := get_oldest_loop_eq_fold ("ICC_Profile" :: gi)
    ("SourceFile" :: "XMP:HistoryWhen" :: ti) data (false, now, []) hne
  simp only [get_oldest_timestamp, hsrc, hloop, ← hP]
  rcases hfold : List.foldl selStep (false, now, []) P with ⟨avail, od, keys⟩
  rw [hfold] at hinv
  simp only
  cases avail with
  | true =>
    obtain ⟨hltnow, hmem, hall, hkeys⟩ := hinv.2 rfl
    refine ⟨some od, keys, by simp, ?_, ?_⟩
    · intro _
      exact ⟨od, rfl, hltnow, hmem, hall, hkeys⟩
    · intro hnone
      obtain ⟨x, hx, hxe⟩ := hmem
      have hx2 := hnone x hx
      rw [hxe] at hx2
      simp [hx2] at hltnow
  | false =>
    obtain ⟨he, hall, hkeys⟩ := hinv.1 rfl
    refine ⟨none, keys, by simp, ?_, fun _ => rfl⟩
    intro hex
    obtain ⟨x, hx, hxl⟩ := hex
    simp [hall x hx] at hxl

/-- Record with two date tags, the earlier held by the second tag. -/
def dataTwo : MetaRecord :=
  [("SourceFile", .scalar "f.jpg"),
   ("EXIF:CreateDate", .scalar "2020:05:01 10:00:00"),
   ("QuickTime:ModifyDate", .scalar "2020:04:01 09:00:00")]

/-- The parsed-date pairs of `dataTwo` under the default filters. -/
def pTwo : List (String × DateTime) :=
  [("EXIF:CreateDate", ⟨2020, 5, 1, 10, 0, 0⟩),
   ("QuickTime:ModifyDate", ⟨2020, 4, 1, 9, 0, 0⟩)]

/-- Witness instantiating `claim_C1` on a concrete record. -/
theorem claim_C1_witness :
    ∃ od keys,
      get_oldest_timestamp nowRef dataTwo [] [] =
        .ok (.scalar "f.jpg", od, keys) ∧
      ((∃ kd ∈ pTwo, dtLt kd.2 nowRef = true) →
        ∃ m, od = some m ∧ dtLt m nowRef = true ∧ (∃ kd ∈ pTwo, kd.2 = m) ∧
          (∀ kd ∈ pTwo, dtLt kd.2 m = false) ∧
          keys = (pTwo.filter (fun kd => kd.2 = m)).map Prod.fst) ∧
      ((∀ kd ∈ pTwo, dtLt kd.2 nowRef = false) → od = none) :=
  claim_C1 nowRef dataTwo [] [] (.scalar "f.jpg") pTwo (by decide) (by decide)
    (by decide)

/-- Embedding of the filter-policy rewriting in the argument setup of
`sortPhotos` (source lines 280-292): when `use_only_tags` is given, both
additional ignore lists are cleared; when only `use_only_groups` is given,
the group ignore list alone is cleared and `additional_tags_to_ignore`
stays in force; otherwise both are kept. Returns the
(additional_groups_to_ignore, additional_tags_to_ignore) pair actually
passed to `get_oldest_timestamp` at line 334. -/
def effectiveIgnores (use_only_tags use_only_groups : Option (List String))
    (additional_groups_to_ignore additional_tags_to_ignore : List String) :
    List String × List String :=
  match use_only_tags with
  | some _ => ([], [])
  | none =>
    match use_only_groups with
    | some _ => ([], additional_tags_to_ignore)
    | none => (additional_groups_to_ignore, additional_tags_to_ignore)

/-- Record with a single EXIF date tag, used to exhibit C4's failure. -/
def dataC4 : MetaRecord :=
  [("SourceFile", .scalar "f.jpg"),
   ("EXIF:CreateDate", .scalar "2020:01:01 00:00:00")]

/-- Claim C4 is refuted as stated: when `use_only_groups` is set (and
`use_only_tags` is not), the source clears only
`additional_groups_to_ignore` (line 287), so a configured ignored tag is
still excluded from timestamp selection: here the ignore-tag list survives
the rewriting, and the selector consequently finds no date for `dataC4`,
whereas with the ignore lists truly bypassed it finds the tag's date. -/
theorem claim_C4_counterexample :
    effectiveIgnores none (some ["EXIF"]) [] ["EXIF:CreateDate"] =
      ([], ["EXIF:CreateDate"]) ∧
    get_oldest_timestamp nowRef dataC4 [] ["EXIF:CreateDate"] =
      .ok (.scalar "f.jpg", none, []) ∧
    get_oldest_timestamp nowRef dataC4 [] [] =
      .ok (.scalar "f.jpg", some ⟨2020, 1, 1, 0, 0, 0⟩, ["EXIF:CreateDate"]) :=
  by decide

/-- Claim C4 (amended): when `use_only_tags` is set, both configured
ignore lists are bypassed for tag selection (selection behaves exactly as
with empty additional ignore lists); when only `use_only_groups` is set,
just the ignored groups are bypassed — selection behaves as with the
configured ignored tags still in force, and any tag in that list remains
excluded from consideration. -/
theorem claim_C4 (ts gs gi ti : List String) (uog : Option (List String))
    (now : DateTime) (data : MetaRecord) (k : String)
    (hk : ti.contains k = true) :
    (get_oldest_timestamp now data (effectiveIgnores (some ts) uog gi ti).1
        (effectiveIgnores (some ts) uog gi ti).2 =
      get_oldest_timestamp now data [] []) ∧
    (get_oldest_timestamp now data (effectiveIgnores none (some gs) gi ti).1
        (effectiveIgnores none (some gs) gi ti).2 =
      get_oldest_timestamp now data [] ti) ∧
    shouldConsider ("ICC_Profile" :: (effectiveIgnores none (some gs) gi ti).1)
      ("SourceFile" :: "XMP:HistoryWhen" ::
        (effectiveIgnores none (some gs) gi ti).2) k = false := by
  refine ⟨rfl, rfl, ?_⟩
  have hk2 : k ∈ ti := by simpa using hk
  simp [shouldConsider, effectiveIgnores, hk2]

/-- Witness instantiating `claim_C4` on concrete filter lists and record. -/
theorem claim_C4_witness :
    (get_oldest_timestamp nowRef dataC4
        (effectiveIgnores (some ["EXIF:CreateDate"]) none []
          ["EXIF:CreateDate"]).1
        (effectiveIgnores (some ["EXIF:CreateDate"]) none []
          ["EXIF:CreateDate"]).2 =
      get_oldest_timestamp nowRef dataC4 [] []) ∧
    (get_oldest_timestamp nowRef dataC4
        (effectiveIgnores none (some ["EXIF"]) [] ["EXIF:CreateDate"]).1
        (effectiveIgnores none (some ["EXIF"]) [] ["EXIF:CreateDate"]).2 =
      get_oldest_timestamp nowRef dataC4 [] ["EXIF:CreateDate"]) ∧
    shouldConsider
      ("ICC_Profile" ::
        (effectiveIgnores none (some ["EXIF"]) [] ["EXIF:CreateDate"]).1)
      ("SourceFile" :: "XMP:HistoryWhen" ::
        (effectiveIgnores none (some ["EXIF"]) [] ["EXIF:CreateDate"]).2)
      "EXIF:CreateDate" = false :=
  claim_C4 ["EXIF:CreateDate"] ["EXIF"] [] ["EXIF:CreateDate"] none nowRef
    dataC4 "EXIF:CreateDate" (by decide)

/-- Claim C3 is refuted as stated: the source adds a `+HH:MM` suffix to
the parsed local time (line 89 builds `timedelta(hours=+2)` and line 107
adds it), so `parse("2020:01:15 10:30:00+02:00")` yields 12:30, not the
08:30 instant of `parse("2020:01:15 08:30:00Z")`. -/
theorem claim_C3_counterexample :
    parse_date_exif "2020:01:15 10:30:00+02:00" =
      .ok (some ⟨2020, 1, 15, 12, 30, 0⟩) ∧
    parse_date_exif "2020:01:15 08:30:00Z" =
      .ok (some ⟨2020, 1, 15, 8, 30, 0⟩) ∧
    parse_date_exif "2020:01:15 10:30:00+02:00" ≠
      parse_date_exif "2020:01:15 08:30:00Z" := by decide

/-- Claim C3 (amended): a well-formed `+HH:MM` or `-HH:MM` suffix is
handled by negating the hour component for `-` and then adding
`hours * 3600 + minutes * 60` seconds to the parsed local time (the
minute component is never negated, matching line 87 of the source, which
flips only the hours). Consequently `parse("2020:01:15 10:30:00+02:00")`
equals `parse("2020:01:15 12:30:00Z")`, not
`parse("2020:01:15 08:30:00Z")`. Stated generally over any input of that
shape, given the decomposition of the input by the source's own split
functions. -/
theorem claim_C3 (s : String) (d0 t1 ys ms ds t0 : List Char) (sep : Char)
    (tzs a b c th tm : List Char)
    (year month day hh mm ss tzh tzm : Int)
    (h1 : splitWs (trimWs s.data) = [d0, t1])
    (h2 : splitOnChar ':' d0 = [ys, ms, ds])
    (h3 : dateShapeOk [ys, ms, ds] = true)
    (h4 : reSplitTZ t1 = [t0, [sep], tzs])
    (h5 : sep = '+' ∨ sep = '-')
    (h6 : splitOnChar ':' t0 = [a, b, c])
    (h7 : splitOnChar ':' tzs = [th, tm])
    (hy : pyInt ys = .ok year) (hm : pyInt ms = .ok month)
    (hd : pyInt ds = .ok day)
    (ha : pyInt a = .ok hh) (hb : pyInt b = .ok mm)
    (hc2 : pyInt ((splitOnChar '.' c).headD []) = .ok ss)
    (hth : pyInt th = .ok tzh) (htm : pyInt tm = .ok tzm)
    (hctor : dateCtorOk year month day hh mm ss = true)
    (hrange : 1 ≤ (addSeconds ⟨year, month, day, hh, mm, ss⟩
        ((if sep = '-' then -tzh else tzh) * 3600 + tzm * 60)).year ∧
      (addSeconds ⟨year, month, day, hh, mm, ss⟩
        ((if sep = '-' then -tzh else tzh) * 3600 + tzm * 60)).year ≤ 9999) :
    parse_date_exif s = .ok (some (addSeconds ⟨year, month, day, hh, mm, ss⟩
      ((if sep = '-' then -tzh else tzh) * 3600 + tzm * 60))) := by
  have hsep : ([sep] = ['-']) = (sep = '-') := by
    simp [List.cons.injEq]
  simp only [parse_date_exif, h1, h2, h3, if_true, hy, hm, hd, h4, h6, h7,
    List.headD_cons, ha, hb, hc2, hth, htm, hctor, hsep]
  rcases h5 with h5 | h5
  · subst h5
    simp only [if_neg (by decide : ¬ ('+' : Char) = '-')] at hrange ⊢
    rw [if_pos hrange]
  · subst h5
    simp only [if_pos rfl, if_true] at hrange ⊢
    rw [if_pos hrange]

/-- Witness instantiating `claim_C3` on a concrete `-02:30` suffix: the
hours are subtracted but the minutes added (net minus 90 minutes). -/
theorem claim_C3_witness :
    parse_date_exif "2020:01:15 10:30:00-02:30" =
      .ok (some ⟨2020, 1, 15, 9, 0, 0⟩) :=
  claim_C3 "2020:01:15 10:30:00-02:30" ("2020:01:15".data)
    ("10:30:00-02:30".data) ("2020".data) ("01".data) ("15".data)
    ("10:30:00".data) '-' ("02:30".data) ("10".data) ("30".data) ("00".data)
    ("02".data) ("30".data) 2020 1 15 10 30 0 2 30 (by decide) (by decide)
    (by decide) (by decide) (Or.inr rfl) (by decide) (by decide) (by decide)
    (by decide) (by decide) (by decide) (by decide) (by decide) (by decide)
    (by decide) (by decide) (by decide)

/-- Claim C5 is refuted as stated: the input "2020::01" has an empty
second date component, so its first token does not consist of three
non-empty components and the claim requires `parse` to return invalid;
instead the source passes its shape test (which never checks the second
and third components for emptiness or digits) and then raises an uncaught
`ValueError` from `int('')` at line 54. The claim's blanket "no input
string causes an uncaught exception" fails at the same input. -/
theorem claim_C5_counterexample :
    splitOnChar ':' ("2020::01".data) = ["2020".data, [], "01".data] ∧
    parse_date_exif "2020::01" = .error .valueError := by decide

/-- Claim C5 (amended): the parser is total and returns invalid, without
raising, for every input that fails the shape test the source actually
performs on the first whitespace-separated token — three colon-separated
entries, first entry lexicographically above "0000" and of length 4, no
decimal point in the joined entries (and likewise for whitespace-only
inputs with no token at all). Inputs that pass this shape test can still
raise an uncaught exception from non-numeric components. -/
theorem claim_C5 (s : String) :
    (splitWs (trimWs s.data) = [] → parse_date_exif s = .ok none) ∧
    (∀ e0 rest, splitWs (trimWs s.data) = e0 :: rest →
      dateShapeOk (splitOnChar ':' e0) = false →
      parse_date_exif s = .ok none) := by
  constructor
  · intro h
    simp only [parse_date_exif, h]
  · intro e0 rest h hshape
    simp only [parse_date_exif, h, hshape, Bool.false_eq_true, if_false]

/-- Witness instantiating `claim_C5` on the time-only token "10:30:00"
(the documented workaround case: year entry has length 2, so the shape
test fails and the value is rejected as dateless). -/
theorem claim_C5_witness : parse_date_exif "10:30:00" = .ok none :=
  (claim_C5 "10:30:00").2 ("10:30:00".data) [] (by decide) (by decide)

/-- Claim C8: an input consisting of a valid date token and no time token
parses to that date at the midday default 12:00:00. Stated generally via
the source's own decomposition of the input: one whitespace token, shape
test passed, numeric components, constructible date. -/
theorem claim_C8 (s : String) (e0 ys ms ds : List Char)
    (year month day : Int)
    (h1 : splitWs (trimWs s.data) = [e0])
    (h2 : splitOnChar ':' e0 = [ys, ms, ds])
    (h3 : dateShapeOk [ys, ms, ds] = true)
    (hy : pyInt ys = .ok year) (hm : pyInt ms = .ok month)
    (hd : pyInt ds = .ok day)
    (hctor : dateCtorOk year month day 12 0 0 = true) :
    parse_date_exif s = .ok (some ⟨year, month, day, 12, 0, 0⟩) := by
  simp only [parse_date_exif, h1, h2, h3, if_true, hy, hm, hd, hctor,
    Bool.false_eq_true, if_false]

/-- Witness instantiating `claim_C8` on the spec's example input. -/
theorem claim_C8_witness : parse_date_exif "2020:01:15" =
    .ok (some ⟨2020, 1, 15, 12, 0, 0⟩) :=
  claim_C8 "2020:01:15" ("2020:01:15".data) ("2020".data) ("01".data)
    ("15".data) 2020 1 15 (by decide) (by decide) (by decide) (by decide)
    (by decide) (by decide) (by decide)

/-- Embedding of `check_for_early_morning_photos` (source lines 166-173):
if the hour is strictly before `day_begins`, subtract `hour + 1` hours via
`timedelta`. Python's datetime subtraction raises `OverflowError` when the
result leaves the representable year range 1..9999; the source does not
catch it, so it is surfaced here. -/
def check_for_early_morning_photos (date : DateTime) (day_begins : Int) :
    Except PyExn DateTime :=
  if date.hour < day_begins then
    let r := addSeconds date (-(date.hour + 1) * 3600)
    if 1 ≤ r.year ∧ r.year ≤ 9999 then .ok r else .error .overflowError
  else .ok date

/-- Claim C6 is refuted at one boundary input: on the very first
representable day (0001-01-01) with `hour < dayBeginsHour`, the
subtraction leaves Python's datetime range and raises `OverflowError`
instead of returning a timestamp in the previous calendar day. -/
theorem claim_C6_counterexample :
    check_for_early_morning_photos ⟨1, 1, 1, 0, 30, 0⟩ 3 =
      .error .overflowError := by decide

/-- Claim C6 (amended): for every valid timestamp other than one on
0001-01-01 and every `dayBeginsHour` in [0, 23]: if `hour < dayBeginsHour`
the adjuster returns the timestamp minus `(hour + 1)` hours, which lies on
the previous calendar day at hour 23 with minutes and seconds unchanged;
if `hour ≥ dayBeginsHour` it returns the timestamp unchanged. On
0001-01-01 with `hour < dayBeginsHour` the subtraction instead raises
`OverflowError` (see the counterexample). -/
theorem claim_C6 (dt : DateTime) (db : Int) (hv : dtValid dt = true)
    (hdb : 0 ≤ db ∧ db ≤ 23)
    (hmin : ¬(dt.year = 1 ∧ dt.month = 1 ∧ dt.day = 1)) :
    (dt.hour < db →
      check_for_early_morning_photos dt db =
        .ok (addSeconds dt (-(dt.hour + 1) * 3600)) ∧
      ((addSeconds dt (-(dt.hour + 1) * 3600)).year,
       (addSeconds dt (-(dt.hour + 1) * 3600)).month,
       (addSeconds dt (-(dt.hour + 1) * 3600)).day) =
        prevDay (dt.year, dt.month, dt.day) ∧
      (addSeconds dt (-(dt.hour + 1) * 3600)).hour = 23 ∧
      (addSeconds dt (-(dt.hour + 1) * 3600)).minute = dt.minute ∧
      (addSeconds dt (-(dt.hour + 1) * 3600)).second = dt.second) ∧
    (db ≤ dt.hour → check_for_early_morning_photos dt db = .ok dt) := by
  obtain ⟨y, m, d, h, mi, sec⟩ := dt
  simp only [dtValid, dateCtorOk, decide_eq_true_eq] at hv
  obtain ⟨hy1, hy2, hm1, hm2, hd1, hd2, hh1, hh2, hmi1, hmi2, hs1, hs2⟩ := hv
  simp only at hmin
  constructor
  · intro hlt
    simp only at hlt
    have hadd : addSeconds ⟨y, m, d, h, mi, sec⟩ (-(h + 1) * 3600) =
        ⟨(prevDay (y, m, d)).1, (prevDay (y, m, d)).2.1,
          (prevDay (y, m, d)).2.2, 23, mi, sec⟩ := by
      simp only [addSeconds]
      have ht : 3600 * h + 60 * mi + sec + -(h + 1) * 3600 =
          60 * mi + sec - 3600 := by ring
      rw [ht]
      have hq : (60 * mi + sec - 3600) / 86400 = -1 := by omega
      have hr : (60 * mi + sec - 3600) % 86400 =
          82800 + 60 * mi + sec := by omega
      rw [hq, hr]
      simp only [show ¬ (0 : Int) ≤ -1 by decide, if_false,
        show Int.toNat (-(-1 : Int)) = 1 by decide, prevDayN,
        DateTime.mk.injEq, true_and]
      refine ⟨?_, ?_, ?_⟩ <;> omega
    have hprev : 1 ≤ (prevDay (y, m, d)).1 ∧ (prevDay (y, m, d)).1 ≤ 9999 := by
      unfold prevDay
      simp only
      split_ifs with hdgt hmgt
      · exact ⟨hy1, hy2⟩
      · exact ⟨hy1, hy2⟩
      · show 1 ≤ y - 1 ∧ y - 1 ≤ 9999
        omega
    have hrange2 : 1 ≤ (addSeconds ⟨y, m, d, h, mi, sec⟩
        (-(h + 1) * 3600)).year ∧
        (addSeconds ⟨y, m, d, h, mi, sec⟩ (-(h + 1) * 3600)).year ≤ 9999 := by
      rw [hadd]; exact hprev
    refine ⟨?_, ?_, ?_, ?_, ?_⟩
    · simp only [check_for_early_morning_photos]
      rw [if_pos hlt, if_pos hrange2]
    · rw [hadd]
    · rw [hadd]
    · rw [hadd]
    · rw [hadd]
  · intro hge
    simp only at hge
    simp only [check_for_early_morning_photos]
    rw [if_neg (by omega : ¬ h < db)]

/-- Witness instantiating `claim_C6`: 02:30:05 on 2020-03-01 with
`day_begins = 3` is shifted (to 23:30:05 on leap day 2020-02-29), while
05:30:05 on the same date is unchanged. -/
theorem claim_C6_witness :
    check_for_early_morning_photos ⟨2020, 3, 1, 2, 30, 5⟩ 3 =
      .ok (addSeconds ⟨2020, 3, 1, 2, 30, 5⟩ (-(2 + 1) * 3600)) ∧
    check_for_early_morning_photos ⟨2020, 3, 1, 5, 30, 5⟩ 3 =
      .ok ⟨2020, 3, 1, 5, 30, 5⟩ :=
  ⟨((claim_C6 ⟨2020, 3, 1, 2, 30, 5⟩ 3 (by decide) (by decide)
      (by decide)).1 (by decide)).1,
   (claim_C6 ⟨2020, 3, 1, 5, 30, 5⟩ 3 (by decide) (by decide)
      (by decide)).2 (by decide)⟩

/-- Index of the last occurrence of `c` in `l` (scanning with a running
index), or `none`. -/
def rfindIdxAux (c : Char) : List Char → Nat → Option Nat
  | [], _ => none
  | x :: xs, i =>
    match rfindIdxAux c xs (i + 1) with
    | some j => some j
    | none => if x = c then some i else none

/-- Python `str.rfind` restricted to single characters, as an `Option`. -/
def rfindIdx (c : Char) (l : List Char) : Option Nat := rfindIdxAux c l 0

/-- Python `os.path.basename` on POSIX: everything after the last slash
(`os.path.split(p)[-1]` at source line 361 computes the same). -/
def pyBasename (p : String) : String :=
  match rfindIdx '/' p.data with
  | some i => ⟨p.data.drop (i + 1)⟩
  | none => p

/-- Python `os.path.splitext` on POSIX (`genericpath._splitext`): the
extension starts at the last dot, provided that dot lies after the last
slash and at least one character of the basename before it is not a dot
(so `".bashrc"` has no extension). -/
def pySplitext (p : String) : String × String :=
  let l := p.data
  let sepIndex : Int :=
    match rfindIdx '/' l with
    | some i => Int.ofNat i
    | none => -1
  match rfindIdx '.' l with
  | none => (p, "")
  | some dotIndex =>
    let start := (sepIndex + 1).toNat
    let mid := (l.drop start).take (dotIndex - start)
    if sepIndex < Int.ofNat dotIndex ∧ mid.any (fun x => x ≠ '.') then
      (⟨l.take dotIndex⟩, ⟨l.drop dotIndex⟩)
    else (p, "")

/-- Python `os.path.join` on POSIX for two components. -/
def pyJoin (a b : String) : String :=
  if b.data.headD ' ' = '/' then b
  else if a.data.isEmpty ∨ a.data.getLast? = some '/' then a ++ b
  else a ++ "/" ++ b

/-- Glob matching with explicit fuel (each recursive call shrinks
`pattern.length + s.length`, so `globMatch` below always supplies enough
fuel; the fuel only makes the recursion structural). -/
def globMatchF : Nat → List Char → List Char → Bool
  | 0, _, _ => false
  | _ + 1, [], [] => true
  | _ + 1, [], _ :: _ => false
  | fuel + 1, '*' :: ps, [] => globMatchF fuel ps []
  | fuel + 1, '*' :: ps, c :: cs =>
    globMatchF fuel ps (c :: cs) || globMatchF fuel ('*' :: ps) cs
  | _ + 1, '?' :: ps, [] => false
  | fuel + 1, '?' :: ps, _ :: cs => globMatchF fuel ps cs
  | _ + 1, _ :: _, [] => false
  | fuel + 1, p :: ps, c :: cs => (p = c) && globMatchF fuel ps cs

/-- Model of `fnmatch.fnmatch name pattern` for patterns built from
literals, `*` and `?` — the shapes the source's ignore filters use (e.g.
`".*"`, `"*.db"`). Bracket character classes and case-folding platforms
are not modelled. -/
def fnmatchGlob (name pattern : String) : Bool :=
  globMatchF (pattern.data.length + name.data.length + 1) pattern.data
    name.data

theorem fnmatchGlob_db : fnmatchGlob "photo.db" "*.db" = true := by decide

theorem fnmatchGlob_hidden : fnmatchGlob ".hidden" ".*" = true := by decide

/-- Filesystem contents: an association list from file path to content
(contents abstracted to naturals; `filecmp.cmp` is modelled as content
equality). Directories are not tracked. -/
abbrev FileSys := List (String × Nat)

/-- Content at a path, if a file exists there. -/
def fsLookup (fs : FileSys) (p : String) : Option Nat :=
  match fs.find? (fun e => e.1 = p) with
  | some e => some e.2
  | none => none

/-- Python `os.path.isfile`. -/
def isfile (fs : FileSys) (p : String) : Bool := (fsLookup fs p).isSome

/-- Python `os.remove`: delete the file, `FileNotFoundError` (an
`OSError`) if it is absent. -/
def osRemove (fs : FileSys) (p : String) : Except PyExn FileSys :=
  if isfile fs p then .ok (fs.filter (fun e => e.1 ≠ p)) else .error .osError

/-- Create or overwrite a file with the given content. -/
def fsSet (fs : FileSys) (p : String) (c : Nat) : FileSys :=
  (p, c) :: fs.filter (fun e => e.1 ≠ p)

/-- Python `shutil.move` onto a file path: raises when the source is
missing, overwrites any existing destination file. -/
def shutilMove (fs : FileSys) (src dst : String) : Except PyExn FileSys :=
  match fsLookup fs src with
  | none => .error .osError
  | some c => .ok (fsSet (fs.filter (fun e => e.1 ≠ src)) dst c)

/-- Python `shutil.copy2`: raises when the source is missing. -/
def shutilCopy2 (fs : FileSys) (src dst : String) : Except PyExn FileSys :=
  match fsLookup fs src with
  | none => .error .osError
  | some c => .ok (fsSet fs dst c)

/-- Python `filecmp.cmp`, modelled as content comparison; raises when
either file is missing. -/
def filecmpCmp (fs : FileSys) (a b : String) : Except PyExn Bool :=
  match fsLookup fs a, fsLookup fs b with
  | some ca, some cb => .ok (ca = cb)
  | _, _ => .error .osError

/-- The simulation ledger `test_file_dict` (source line 328): planned
destination path to the source path that claimed it. -/
abbrev Ledger := List (String × String)

/-- Ledger lookup (`test_file_dict[dest_file]`). -/
def ledgerLookup (tl : Ledger) (p : String) : Option String :=
  match tl.find? (fun e => e.1 = p) with
  | some e => some e.2
  | none => none

/-- Ledger insertion/overwrite (`test_file_dict[dest_file] = src_file`). -/
def ledgerSet (tl : Ledger) (p v : String) : Ledger :=
  (p, v) :: tl.filter (fun e => e.1 ≠ p)

/-- Result of one existence-and-identity check of the collision loop. -/
inductive CandSt where
  | free
  | dup
  | taken
deriving DecidableEq, Repr

/-- One iteration's test of the collision loop (source lines 423-428): in
test mode the ledger stands in for the filesystem and `dest_compare` is
the recorded source path; `.dup` requires `remove_duplicates` and an
identical file, `.taken` is an occupied path that must be evaded. -/
def candStatus (test remove_duplicates : Bool) (fs : FileSys) (tl : Ledger)
    (src_file dest_file : String) : Except PyExn CandSt :=
  let occupied :=
    if test then (ledgerLookup tl dest_file).isSome else isfile fs dest_file
  if occupied then
    if remove_duplicates then
      let dest_compare :=
        if test then (ledgerLookup tl dest_file).getD "" else dest_file
      match filecmpCmp fs src_file dest_compare with
      | .error e => .error e
      | .ok b => .ok (if b then .dup else .taken)
    else .ok .taken
  else .ok .free

/-- The collision-resolution loop of the placement step (source lines
418-445): starting from `dest_file` with the suffix counter `append`,
rename to `root_N.ext` and recheck until a free or identical-duplicate
path is found. The Python loop is `while True`; the explicit fuel only
bounds the recursion and the caller passes more than the number of
occupied paths, so it never runs out (see `claim_C7`). -/
def resolveCollision (test remove_duplicates : Bool) (fs : FileSys)
    (tl : Ledger) (src_file root ext : String) :
    Nat → String → Nat → Except PyExn (String × Bool)
  | 0, _, _ => .error .fuelExhausted
  | fuel + 1, dest_file, append =>
    match candStatus test remove_duplicates fs tl src_file dest_file with
    | .error e => .error e
    | .ok .free => .ok (dest_file, false)
    | .ok .dup => .ok (dest_file, true)
    | .ok .taken =>
      resolveCollision test remove_duplicates fs tl src_file root ext fuel
        (root ++ "_" ++ toString append ++ ext) (append + 1)

/-- The n-th candidate destination path the loop tries: the original
destination for `n = 0`, then `root_N.ext` for `N = n`. -/
def candAt (root ext dest0 : String) : Nat → String
  | 0 => dest0
  | n + 1 => root ++ "_" ++ toString (n + 1) ++ ext

theorem resolveCollision_go (test remove_duplicates : Bool) (fs : FileSys)
    (tl : Ledger) (src_file root ext dest0 : String) :
    ∀ (k fuel i : Nat), k < fuel →
    (∀ j, i ≤ j → j < i + k →
      candStatus test remove_duplicates fs tl src_file
        (candAt root ext dest0 j) = .ok .taken) →
    (candStatus test remove_duplicates fs tl src_file
        (candAt root ext dest0 (i + k)) = .ok .free →
      resolveCollision test remove_duplicates fs tl src_file root ext fuel
        (candAt root ext dest0 i) (i + 1) =
        .ok (candAt root ext dest0 (i + k), false)) ∧
    (candStatus test remove_duplicates fs tl src_file
        (candAt root ext dest0 (i + k)) = .ok .dup →
      resolveCollision test remove_duplicates fs tl src_file root ext fuel
        (candAt root ext dest0 i) (i + 1) =
        .ok (candAt root ext dest0 (i + k), true)) := by
  intro k
  induction k with
  | zero =>
    intro fuel i hfuel htaken
    cases fuel with
    | zero => omega
    | succ f =>
      constructor
      · intro hfree
        simp only [Nat.add_zero] at hfree
        simp [resolveCollision, hfree]
      · intro hdup
        simp only [Nat.add_zero] at hdup
        simp [resolveCollision, hdup]
  | succ k ih =>
    intro fuel i hfuel htaken
    cases fuel with
    | zero => omega
    | succ f =>
      have h0 : candStatus test remove_duplicates fs tl src_file
          (candAt root ext dest0 i) = .ok .taken :=
        htaken i (Nat.le_refl i) (by omega)
      have ih2 := ih f (i + 1) (by omega)
        (fun j h1 h2 => htaken j (by omega) (by omega))
      have hidx : i + 1 + k = i + (k + 1) := by omega
      rw [hidx] at ih2
      constructor
      · intro hfree
        simp only [resolveCollision, h0]
        simpa [candAt] using ih2.1 hfree
      · intro hdup
        simp only [resolveCollision, h0]
        simpa [candAt] using ih2.2 hdup

/-- Claim C7: collision resolution in the placement step. When the
destination is occupied by a non-identical file (or duplicate-removal is
disabled), the loop appends `_N` before the extension with `N` starting
at 1 and incrementing, rechecking at each new path, until a free or
identical-duplicate path is found: if the first `k` candidate paths
(the original destination, then `root_1.ext`, `root_2.ext`, ...) are all
occupied by non-identical files and candidate `k` is free (respectively an
identical duplicate), the loop returns candidate `k` with the
`fileIsIdentical` flag cleared (respectively set). In particular a second
distinct file mapping to an occupied destination receives the `_1` suffix
(see the witness). -/
theorem claim_C7 (test remove_duplicates : Bool) (fs : FileSys) (tl : Ledger)
    (src_file root ext dest0 : String) (k fuel : Nat) (hfuel : k < fuel)
    (htaken : ∀ j, j < k →
      candStatus test remove_duplicates fs tl src_file
        (candAt root ext dest0 j) = .ok .taken) :
    (candStatus test remove_duplicates fs tl src_file
        (candAt root ext dest0 k) = .ok .free →
      resolveCollision test remove_duplicates fs tl src_file root ext fuel
        dest0 1 = .ok (candAt root ext dest0 k, false)) ∧
    (candStatus test remove_duplicates fs tl src_file
        (candAt root ext dest0 k) = .ok .dup →
      resolveCollision test remove_duplicates fs tl src_file root ext fuel
        dest0 1 = .ok (candAt root ext dest0 k, true)) := by
  have h := resolveCollision_go test remove_duplicates fs tl src_file root
    ext dest0 k fuel 0 hfuel (fun j h1 h2 => htaken j (by omega))
  simpa [candAt] using h

/-- Contents for the collision witness: two distinct source files. -/
def fsC7 : FileSys := [("s1.jpg", 1), ("s2.jpg", 2)]

/-- Simulation ledger after the first file claimed the destination. -/
def tlC7 : Ledger := [("d/a.jpg", "s1.jpg")]

/-- Witness instantiating `claim_C7`: in test mode, with `d/a.jpg` already
claimed by the distinct file `s1.jpg`, the second file `s2.jpg` resolves
to `d/a_1.jpg`. -/
theorem claim_C7_witness :
    resolveCollision true true fsC7 tlC7 "s2.jpg" "d/a" ".jpg" 3
      "d/a.jpg" 1 = .ok ("d/a_1.jpg", false) :=
  (claim_C7 true true fsC7 tlC7 "s2.jpg" "d/a" ".jpg" "d/a.jpg" 1 3
    (by omega)
    (fun j hj => by
      have hj0 : j = 0 := by omega
      subst hj0
      decide)).1 (by decide)

/-- Observable filesystem-level outcomes of processing one record. -/
inductive FileAction where
  | removed (p : String)
  | moved (src dst : String)
  | copied (src dst : String)
  | skippedHidden
  | skippedIdenticalCopy
  | recordedTest (dst : String)
deriving DecidableEq, Repr

/-- The configuration slice of `sortPhotos` that the per-record pipeline
reads. `sort_format`/`rename_format` are the `strftime` renderings of the
configured templates, modelled as functions of the timestamp;
`ignore_list` is the post-split value of lines 300-301. -/
structure SortConfig where
  test : Bool
  copy_files : Bool
  remove_duplicates : Bool
  remove_ignored_files : Bool
  day_begins : Int
  ignore_list : Option (List String)
  sort_format : DateTime → String
  rename_format : Option (DateTime → String)
  dest_dir : String

/-- The ignore-filter pass of the per-record loop (source lines 358-368).
The `continue` at line 368 binds to the inner `for _filter in ignore_list`
loop, not to the outer per-record loop, so this pass only deletes matching
files (when configured, outside test mode) or does nothing, and in every
case control afterwards falls through to the rest of the record
processing. A second matching filter after a deletion makes `os.remove`
raise, as in the source. -/
def ignoreFilterPass (remove_ignored_files test : Bool) (src_file : String) :
    List String → FileSys → List FileAction →
    Except PyExn (FileSys × List FileAction)
  | [], fs, acts => .ok (fs, acts)
  | f :: rest, fs, acts =>
    if fnmatchGlob (pyBasename src_file) f then
      if remove_ignored_files ∧ ¬ test then
        match osRemove fs src_file with
        | .error e => .error e
        | .ok fs2 =>
          ignoreFilterPass remove_ignored_files test src_file rest fs2
            (acts ++ [.removed src_file])
      else ignoreFilterPass remove_ignored_files test src_file rest fs acts
    else ignoreFilterPass remove_ignored_files test src_file rest fs acts

/-- The per-record pipeline of `sortPhotos` for a record whose date was
found (source lines 358-460): ignore-filter pass, hidden-file check,
day-boundary adjustment, destination-directory and filename computation,
collision resolution, and the final move/copy/record action. Directory
creation (lines 388-391) only ensures directories exist and is not
tracked; verbose printing is dropped. The collision fuel exceeds the
number of occupied paths, standing in for Python's unbounded `while`. -/
def processRecord (cfg : SortConfig) (fs0 : FileSys) (tl : Ledger)
    (src_file : String) (date0 : DateTime) :
    Except PyExn (FileSys × Ledger × List FileAction) :=
  let passRes : Except PyExn (FileSys × List FileAction) :=
    match cfg.ignore_list with
    | some filters =>
      ignoreFilterPass cfg.remove_ignored_files cfg.test src_file filters
        fs0 []
    | none => .ok (fs0, [])
  match passRes with
  | .error e => .error e
  | .ok (fs, acts) =>
    if (pyBasename src_file).data.headD ' ' = '.' then
      .ok (fs, tl, acts ++ [.skippedHidden])
    else
      match check_for_early_morning_photos date0 cfg.day_begins with
      | .error e => .error e
      | .ok date =>
        let destDir := (splitOnChar '/' (cfg.sort_format date).data).foldl
          (fun acc d => pyJoin acc ⟨d⟩) cfg.dest_dir
        let filename :=
          match cfg.rename_format with
          | some rf => rf date ++ (pySplitext (pyBasename src_file)).2
          | none => pyBasename src_file
        let dest_file := pyJoin destDir filename
        let root := (pySplitext dest_file).1
        let ext := (pySplitext dest_file).2
        match resolveCollision cfg.test cfg.remove_duplicates fs tl src_file
          root ext (fs.length + tl.length + 2) dest_file 1 with
        | .error e => .error e
        | .ok (dest, fileIsIdentical) =>
          if cfg.test then
            .ok (fs, ledgerSet tl dest src_file,
              acts ++ [.recordedTest dest])
          else if cfg.copy_files then
            if fileIsIdentical then
              .ok (fs, tl, acts ++ [.skippedIdenticalCopy])
            else
              match shutilCopy2 fs src_file dest with
              | .error e => .error e
              | .ok fs2 => .ok (fs2, tl, acts ++ [.copied src_file dest])
          else
            match shutilMove fs src_file dest with
            | .error e => .error e
            | .ok fs2 => .ok (fs2, tl, acts ++ [.moved src_file dest])

/-- Configuration for the C2 failing input: move mode, no test, ignore
list `*.db`, ignored files kept (not removed). -/
def cfgC2 : SortConfig :=
  { test := false, copy_files := false, remove_duplicates := true,
    remove_ignored_files := false, day_begins := 0,
    ignore_list := some ["*.db"],
    sort_format := fun _ => "2020/01-Jan", rename_format := none,
    dest_dir := "dest" }

/-- Claim C2 describes the intended behavior (the source even prints
"ignoring" for the matched file), but the code does not implement it: the
`continue` at line 368 continues the inner filter loop rather than the
per-record loop, so a file whose name matches the ignore-glob list, with
remove-ignored-files off, is still moved into the destination tree; and
with remove-ignored-files on (outside test mode) the record still falls
through to placement, where moving the just-deleted file raises an
uncaught error instead of continuing with the next record. -/
theorem claim_C2 :
    fnmatchGlob (pyBasename "photo.db") "*.db" = true ∧
    processRecord cfgC2 [("photo.db", 7)] [] "photo.db"
      ⟨2020, 1, 15, 12, 0, 0⟩ =
      .ok ([("dest/2020/01-Jan/photo.db", 7)], [],
        [.moved "photo.db" "dest/2020/01-Jan/photo.db"]) ∧
    processRecord { cfgC2 with remove_ignored_files := true }
      [("photo.db", 7)] [] "photo.db" ⟨2020, 1, 15, 12, 0, 0⟩ =
      .error .osError :=
  ⟨by decide, by decide, by decide⟩

/-- The value shapes the `ignore_list` parameter of `sortPhotos` can
receive from a Python caller: `None`, a string (what the CLI passes), or a
list (the documented default value `[]`). -/
inductive PyIgnoreArg where
  | noneVal
  | str (s : String)
  | list (l : List String)

/-- Embedding of the ignore-list normalization at source lines 300-301:
`if ignore_list is not None: ignore_list = ignore_list.split(',')`. The
`split` attribute exists only on strings, so a list value raises
`AttributeError`. This statement executes before the metadata request
(line 318) and the per-file loop (line 331), hence before any file is
processed. -/
def normalizeIgnoreList : PyIgnoreArg → Except PyExn (Option (List String))
  | .noneVal => .ok none
  | .str s =>
    .ok (some ((splitOnChar ',' s.data).map (fun l => (⟨l⟩ : String))))
  | .list _ => .error .attributeError

/-- Claim C10: `sortPhotos` treats `ignore_list` as a comma-separated
string, calling `split(',')` unconditionally on any non-None value, so a
call with the documented default `[]` (or any list) raises
`AttributeError` before any record is processed, while `None` and string
values are accepted. -/
theorem claim_C10 :
    (∀ l, normalizeIgnoreList (.list l) = .error .attributeError) ∧
    normalizeIgnoreList .noneVal = .ok none ∧
    (∀ s, normalizeIgnoreList (.str s) =
      .ok (some ((splitOnChar ',' s.data).map (fun l => (⟨l⟩ : String))))) :=
  ⟨fun l => rfl, rfl, fun s => rfl⟩

/-- One `os.walk` entry: a directory path, its direct file names, and the
paths of its direct subdirectories. -/
structure WalkEntry where
  dirpath : String
  files : List String
  subdirs : List String
deriving DecidableEq, Repr

/-- The `remove_empty_dirs` cleanup phase of `sortPhotos` (source lines
472-479), folded over the bottom-up (`topdown=False`) `os.walk` entry
sequence of the source tree: a directory with no direct files, other than
the source root itself, is removed with `os.rmdir` unless in test mode.
`os.rmdir` succeeds only if the directory is empty at that moment, i.e.
all its subdirectories were removed earlier in the walk; otherwise it
raises an uncaught `OSError`, which aborts the phase. Returns the removed
paths in order and the error, if any. -/
def removeEmptyDirs (test : Bool) (src_dir : String) :
    List WalkEntry → List String → List String × Option PyExn
  | [], removed => (removed, none)
  | e :: rest, removed =>
    if e.files.isEmpty ∧ e.dirpath ≠ src_dir then
      if test then removeEmptyDirs test src_dir rest removed
      else if e.subdirs.all (fun d => removed.contains d) then
        removeEmptyDirs test src_dir rest (removed ++ [e.dirpath])
      else (removed, some .osError)
    else removeEmptyDirs test src_dir rest removed

theorem removeEmptyDirs_go (test : Bool) (src_dir : String) :
    ∀ (entries : List WalkEntry) (acc : List String),
    (test = true → (removeEmptyDirs test src_dir entries acc).1 = acc) ∧
    (∀ p, p ∈ (removeEmptyDirs test src_dir entries acc).1 →
      p ∈ acc ∨ ∃ e ∈ entries, e.dirpath = p ∧ e.files = [] ∧
        p ≠ src_dir) := by
  intro entries
  induction entries with
  | nil => intro acc; exact ⟨fun _ => rfl, fun p hp => Or.inl hp⟩
  | cons e rest ih =>
    intro acc
    constructor
    · intro ht
      subst ht
      simp only [removeEmptyDirs]
      split_ifs with h1
      · exact (ih acc).1 rfl
      · exact (ih acc).1 rfl
    · intro p hp
      simp only [removeEmptyDirs] at hp
      split_ifs at hp with h1 h2 h3
      · rcases (ih acc).2 p hp with h | ⟨e2, he2, hrest⟩
        · exact Or.inl h
        · exact Or.inr ⟨e2, List.mem_cons_of_mem _ he2, hrest⟩
      · rcases (ih (acc ++ [e.dirpath])).2 p hp with h | ⟨e2, he2, hrest⟩
        · rcases List.mem_append.mp h with h | h
          · exact Or.inl h
          · simp only [List.mem_singleton] at h
            subst h
            refine Or.inr ⟨e, List.mem_cons_self _ _, rfl, ?_, h1.2⟩
            simpa [List.isEmpty_iff] using h1.1
        · exact Or.inr ⟨e2, List.mem_cons_of_mem _ he2, hrest⟩
      · exact Or.inl hp
      · rcases (ih acc).2 p hp with h | ⟨e2, he2, hrest⟩
        · exact Or.inl h
        · exact Or.inr ⟨e2, List.mem_cons_of_mem _ he2, hrest⟩

/-- Claim C9: the cleanup phase never removes the configured source root
itself (the `dirpath != src_dir` guard at line 476), removes no directory
at all in test mode (the `if not test` guard at line 478), and every
directory it does remove is a walk entry other than the root whose
listing had no direct files. -/
theorem claim_C9 (test : Bool) (src_dir : String)
    (entries : List WalkEntry) :
    (test = true → (removeEmptyDirs test src_dir entries []).1 = []) ∧
    src_dir ∉ (removeEmptyDirs test src_dir entries []).1 ∧
    (∀ p ∈ (removeEmptyDirs test src_dir entries []).1,
      ∃ e ∈ entries, e.dirpath = p ∧ e.files = [] ∧ p ≠ src_dir) := by
  have h := removeEmptyDirs_go test src_dir entries []
  refine ⟨h.1, ?_, ?_⟩
  · intro hmem
    rcases h.2 src_dir hmem with hc | ⟨e, he, h1, h2, h3⟩
    · simp at hc
    · exact h3 rfl
  · intro p hp
    rcases h.2 p hp with hc | he
    · simp at hc
    · exact he

/-- Walk entries of a small source tree: `src/a/b` (empty), `src/a` (no
direct files), `src` root (one file left). -/
def entriesC9 : List WalkEntry :=
  [⟨"src/a/b", [], []⟩, ⟨"src/a", [], ["src/a/b"]⟩,
   ⟨"src", ["left.txt"], ["src/a"]⟩]

/-- Witness instantiating `claim_C9` on a concrete walk: in test mode
nothing is removed; in real mode the two empty descendants are removed
and the root survives. -/
theorem claim_C9_witness :
    ((removeEmptyDirs true "src" entriesC9 []).1 = []) ∧
    ("src" ∉ (removeEmptyDirs false "src" entriesC9 []).1) ∧
    (removeEmptyDirs false "src" entriesC9 [] =
      (["src/a/b", "src/a"], none)) :=
  ⟨(claim_C9 true "src" entriesC9).1 rfl,
   (claim_C9 false "src" entriesC9).2.1,
   by decide⟩
